import Mathlib

/-!
Verification of the KloneKit core: the resumable stage runner and execution
state store (src/internal/app/app.go, src/internal/app/state.go), the
container runtime finalization logic and endpoint resolver
(src/internal/runtime/docker.go), and the log-line sanitizer
(src/internal/provisioner/docker.go).

The Go code is shallowly embedded: Go strings become Lean String or List
Char (one Char per byte), stateful loops become structural recursion with
explicit traces of the file and engine operations performed, and fallible
operations return Except or Option.
-/

namespace KloneKit

/-! ## Execution state model (src/internal/app/state.go) -/

/-- Go: type ExecutionStage string.  Stage names are plain strings, so a
checkpoint parsed from disk can hold a value outside the known names. -/
abbrev ExecutionStage := String

def StageScaffold : ExecutionStage := "scaffold"

def StageSCM : ExecutionStage := "scm"

def StageProvision : ExecutionStage := "provision"

def StageCompleted : ExecutionStage := "completed"

/-- The durable checkpoint record (struct ExecutionState).  The two
timestamp fields (CreatedAt, LastUpdatedAt) carry wall-clock time and play
no role in any control decision, so they are omitted from the embedding.
The LastCompletedStage field is the one written and consulted by the
current stage runner (app.go); LastSuccessfulStage is the legacy field kept
in step with it and consumed by getNextStage. -/
structure ExecutionState where
  schemaVersion : String
  runID : String
  lastSuccessfulStage : ExecutionStage
  lastCompletedStage : String
  blueprintPath : String
  deriving DecidableEq, Repr

def StateSchemaVersion : String := "1.0"

/-- Go: newState(blueprintPath, runID) — the fresh-start record; both stage
fields start empty (no stage completed yet). -/
def newState (blueprintPath runID : String) : ExecutionState :=
  { schemaVersion := StateSchemaVersion
    runID := runID
    lastSuccessfulStage := ""
    lastCompletedStage := ""
    blueprintPath := blueprintPath }

/-! ## Skip logic (app.go lines 402-433, state.go lines 84-124) -/

/-- Go: getCompletedStages(lastCompletedStage) — the hardcoded switch that
maps the checkpoint value to the set of stages considered done.  An unknown
value falls through to the empty list. -/
def getCompletedStages (lastCompletedStage : String) : List String :=
  if lastCompletedStage = "completed" then ["scaffold", "scm", "provision"]
  else if lastCompletedStage = "provision" then ["scaffold", "scm", "provision"]
  else if lastCompletedStage = "scm" then ["scaffold", "scm"]
  else if lastCompletedStage = "scaffold" then ["scaffold"]
  else []

/-- Go: shouldSkipStage(state, stageName) (app.go).  A nil state pointer is
modelled as none.  The source loops over getCompletedStages testing string
equality; List.contains is that loop. -/
def shouldSkipStage (state : Option ExecutionState) (stageName : String) : Bool :=
  match state with
  | none => false
  | some s =>
    if s.lastCompletedStage = "" then false
    else (getCompletedStages s.lastCompletedStage).contains stageName

/-- Go: (s *ExecutionState) getNextStage() (state.go).  Reads the legacy
LastSuccessfulStage field; an unknown value falls through to scaffold. -/
def getNextStage (s : Option ExecutionState) : ExecutionStage :=
  match s with
  | none => StageScaffold
  | some st =>
    if st.lastSuccessfulStage = "" then StageScaffold
    else if st.lastSuccessfulStage = StageScaffold then StageSCM
    else if st.lastSuccessfulStage = StageSCM then StageProvision
    else if st.lastSuccessfulStage = StageProvision then StageCompleted
    else StageScaffold

/-! ## The stage runner (app.go lines 352-400) -/

/-- A pipeline stage as the runner sees it: Name() and the result of
Execute (none = success, some msg = the error Execute returned).  The
concrete stages (ScaffoldStage, ScmStage, ProvisionStage) never mutate the
ExecutionState passed to Execute, so the outcome is a plain value. -/
structure MStage where
  name : String
  outcome : Option String
  deriving DecidableEq, Repr

/-- Go: buildStages — the fixed three-stage pipeline, parameterized here by
each Execute result. -/
def buildStages (o1 o2 o3 : Option String) : List MStage :=
  [⟨"scaffold", o1⟩, ⟨"scm", o2⟩, ⟨"provision", o3⟩]

deriving instance DecidableEq for Except

/-- Observable outcome of runStages: the returned error (if any), the final
in-memory state, and the traces of which stage names were executed, which
were skipped, and which full state snapshots saveState persisted, in
order. -/
structure RunOut where
  res : Except String Unit
  final : ExecutionState
  executed : List String
  skipped : List String
  saves : List ExecutionState
  deriving DecidableEq, Repr

/-- Go: runStages(ctx, stages, state, isDryRun) (app.go lines 362-400).
Per stage, in order: consult shouldSkipStage; on skip continue; otherwise
run Execute; on failure return the wrapped error at once; on success set
LastCompletedStage (and the legacy field via the switch) and, unless in
dry-run mode, persist the whole record via saveState.  saveState itself is
modelled as always succeeding (its own failure path merely produces a
different wrapped error and also stops the run). -/
def runStages : List MStage → ExecutionState → Bool → RunOut
  | [], st, _ => ⟨.ok (), st, [], [], []⟩
  | stg :: rest, st, isDryRun =>
    if shouldSkipStage (some st) stg.name then
      let r := runStages rest st isDryRun
      { r with skipped := stg.name :: r.skipped }
    else
      match stg.outcome with
      | some e =>
        ⟨.error ("stage \x27" ++ stg.name ++ "\x27 failed: " ++ e), st, [stg.name], [], []⟩
      | none =>
        let st1 : ExecutionState :=
          { st with
            lastCompletedStage := stg.name
            lastSuccessfulStage :=
              if stg.name = "scaffold" then StageScaffold
              else if stg.name = "scm" then StageSCM
              else if stg.name = "provision" then StageProvision
              else st.lastSuccessfulStage }
        let r := runStages rest st1 isDryRun
        if isDryRun then
          { r with executed := stg.name :: r.executed }
        else
          { r with executed := stg.name :: r.executed, saves := st1 :: r.saves }

/-! ## The state store (state.go lines 35-69, 126-137) -/

/-- What the well-known checkpoint path holds when loadState looks:
nothing, a file the OS cannot read, or some raw bytes. -/
inductive StateFile
  | missing
  | unreadable (msg : String)
  | content (raw : String)
  deriving DecidableEq, Repr

/-- Go: loadState() (state.go lines 37-53).  The json.Unmarshal step is
abstracted as the parse argument.  A missing file is the explicit absent
result (.ok none); read and parse failures are wrapped errors. -/
def loadState (file : StateFile)
    (parse : String → Except String ExecutionState) :
    Except String (Option ExecutionState) :=
  match file with
  | .missing => .ok none
  | .unreadable msg => .error ("failed to read state file: " ++ msg)
  | .content raw =>
    match parse raw with
    | .error e => .error ("failed to parse state file: " ++ e)
    | .ok st => .ok (some st)

/-- One operation of Apply on the checkpoint file. -/
inductive FileOp
  | read
  | write (st : ExecutionState)
  | remove
  deriving DecidableEq, Repr

/-- The checkpoint-file operations Apply performs (app.go lines 271-350):
one initial load, then the saveState calls issued by runStages, then — only
when every stage succeeded — the terminal step, which in a real run either
retains the completed record or removes the file, and in a dry run does
neither.  A load failure or a stage failure returns early.  (The blueprint
parse between load and runStages touches no checkpoint file and is
omitted.) -/
def applyFileOps (file : StateFile)
    (parse : String → Except String ExecutionState)
    (o1 o2 o3 : Option String) (blueprintPath runID : String)
    (isDryRun retainState : Bool) : List FileOp :=
  match loadState file parse with
  | .error _ => [.read]
  | .ok optSt =>
    let st := match optSt with
      | none => newState blueprintPath runID
      | some s => s
    let r := runStages (buildStages o1 o2 o3) st isDryRun
    let saveOps := r.saves.map FileOp.write
    match r.res with
    | .error _ => .read :: saveOps
    | .ok _ =>
      let stFinal : ExecutionState :=
        { r.final with
          lastSuccessfulStage := StageCompleted
          lastCompletedStage := "completed" }
      if isDryRun then .read :: saveOps
      else if retainState then .read :: (saveOps ++ [.write stFinal])
      else .read :: (saveOps ++ [.remove])

/-! ## Container handle finalization (runtime/docker.go lines 237-323) -/

/-- What the select over ContainerWait channels delivers inside Close: a
status with an exit code, an error from the error channel, or expiry of the
30-second wait context. -/
inductive WaitOutcome
  | status (exitCode : Int)
  | waitErr (msg : String)
  | timeout
  deriving DecidableEq, Repr

/-- The containerReader fields that decide Close behavior.  The Docker
client, container id and log stream are external handles with no influence
on the control flow modelled here. -/
structure ContainerReader where
  closed : Bool
  retainContainer : Bool
  deriving DecidableEq, Repr

/-- Everything observable about one Close call: the returned error (none =
nil), whether ContainerWait was entered, whether ContainerRemove was
called, and the handle state afterwards. -/
structure CloseResult where
  err : Option String
  waited : Bool
  removeAttempted : Bool
  reader : ContainerReader
  deriving DecidableEq, Repr

/-- The exitError field after the select (docker.go lines 283-303): exit
code zero leaves it nil, a non-zero code or a wait-channel error or a
timeout records an error. -/
def exitErrorOf : WaitOutcome → Option String
  | .status c =>
    if c = 0 then none
    else some ("container exited with non-zero status: " ++ toString c)
  | .waitErr m => some m
  | .timeout => some "container wait timeout"

/-- Go: (cr *containerReader) Close() (docker.go lines 268-323).  A second
call returns nil at once.  Otherwise the bounded wait runs, then removal is
attempted exactly when retainContainer is unset; a removal failure
(removeFails) is logged only and never reaches the returned error. -/
def containerReaderClose (cr : ContainerReader) (w : WaitOutcome)
    (removeFails : Bool) : CloseResult :=
  if cr.closed then ⟨none, false, false, cr⟩
  else
    let cr1 : ContainerReader := { cr with closed := true }
    let e := exitErrorOf w
    if cr.retainContainer then ⟨e, true, false, cr1⟩
    else ⟨e, true, true, cr1⟩

/-! ## Endpoint resolver (runtime/docker.go lines 44-108) -/

/-- One candidate socket path together with how the host answers for it:
whether os.Stat finds it, and the errors (if any) from
client.NewClientWithOpts and from the Ping liveness check. -/
structure SocketCandidate where
  path : String
  onHost : Bool
  clientErr : Option String
  pingErr : Option String
  deriving DecidableEq, Repr

/-- Behavior of the environment-driven fallback client (client.FromEnv):
the errors, if any, of its construction and of its Ping. -/
structure EnvConfig where
  clientErr : Option String
  pingErr : Option String
  deriving DecidableEq, Repr

/-- A connected Docker client, identified by what it is bound to. -/
inductive DockerClient
  | socket (path : String)
  | fromEnv
  deriving DecidableEq, Repr

/-- Observable outcome of the resolver: the client or aggregated error, the
candidate paths the loop examined (in order), and whether the env fallback
was consulted. -/
structure ResolveOut where
  result : Except String DockerClient
  examined : List String
  envTried : Bool
  deriving DecidableEq, Repr

/-- The for-loop of createDockerClientWithDynamicSocket (docker.go lines
53-87), threading lastErr.  Returns (connected path if any, final lastErr,
examined paths).  A candidate absent from the host is skipped; a client or
ping failure records lastErr and moves on; the first candidate that exists,
yields a client and answers the ping ends the loop. -/
def resolveLoop : List SocketCandidate → Option String →
    Option String × Option String × List String
  | [], lastErr => (none, lastErr, [])
  | c :: rest, lastErr =>
    if c.onHost = false then
      let (r, e, t) := resolveLoop rest lastErr
      (r, e, c.path :: t)
    else
      match c.clientErr with
      | some ce =>
        let (r, e, t) := resolveLoop rest (some ce)
        (r, e, c.path :: t)
      | none =>
        match c.pingErr with
        | some pe =>
          let (r, e, t) := resolveLoop rest (some pe)
          (r, e, c.path :: t)
        | none => (some c.path, lastErr, [c.path])

/-- Go: createDockerClientWithDynamicSocket (docker.go lines 44-108): the
candidate loop, then — only if no candidate connected — one env-based
attempt, whose construction failure wraps the last loop error and whose
ping failure wraps its own error. -/
def createDockerClientWithDynamicSocket (cands : List SocketCandidate)
    (env : EnvConfig) : ResolveOut :=
  match resolveLoop cands none with
  | (some p, _, t) => ⟨.ok (.socket p), t, false⟩
  | (none, lastErr, t) =>
    match env.clientErr with
    | some _ =>
      ⟨.error ("failed to create Docker client with all methods: last error was "
          ++ lastErr.getD ""), t, true⟩
    | none =>
      match env.pingErr with
      | some pe =>
        ⟨.error ("failed to connect to Docker daemon with all methods: last error was "
            ++ pe), t, true⟩
      | none => ⟨.ok .fromEnv, t, true⟩

/-! ## The output sanitizer (provisioner/docker.go lines 260-320)

A Go string is a byte sequence; a line is embedded as List Char with one
Char per byte (values 0-255).  The two regexes only involve ASCII classes,
so byte-level matching coincides with what RE2 does on the UTF-8 bytes. -/

/-- The regex class [Zero-Nine or semicolon] shared by both patterns. -/
def isDigitSemi (c : Char) : Bool :=
  (('0' ≤ c) && (c ≤ '9')) || c = ';'

/-- The regex class [a-zA-Z]. -/
def isAsciiLetter (c : Char) : Bool :=
  (('a' ≤ c) && (c ≤ 'z')) || (('A' ≤ c) && (c ≤ 'Z'))

/-- Printable ASCII, the range 32-126 tested in the final loop. -/
def isPrintableAscii (c : Char) : Bool :=
  32 ≤ c.toNat && c.toNat ≤ 126

/-- The shared tail of both regex patterns, applied after the run of
digits and semicolons has been dropped: one ASCII letter must follow. -/
def matchTail (l : List Char) : Option (List Char) :=
  match l with
  | a :: rest4 => if isAsciiLetter a then some rest4 else none
  | [] => none

/-- Tries ansiRegex at the head of the list: ESC, then a bracket, then a
maximal run of digits and semicolons, then one ASCII letter.  Because the
digit class and the letter class are disjoint, this maximal-run match is
the unique match the regex engine can produce at this position.  Returns
the suffix after the match. -/
def matchAnsiAt (l : List Char) : Option (List Char) :=
  match l with
  | c :: b :: rest =>
    if c = '\x1b' ∧ b = '[' then matchTail (rest.dropWhile isDigitSemi)
    else none
  | _ => none

/-- Tries bracketRegex at the head of the list: a bracket, a maximal run of
digits and semicolons, then one ASCII letter. -/
def matchBracketAt (l : List Char) : Option (List Char) :=
  match l with
  | b :: rest =>
    if b = '[' then matchTail (rest.dropWhile isDigitSemi)
    else none
  | [] => none

theorem dropWhile_length_le (p : Char → Bool) :
    ∀ l : List Char, (l.dropWhile p).length ≤ l.length
  | [] => by simp
  | a :: t => by
    by_cases h : p a
    · have := dropWhile_length_le p t
      simp only [List.dropWhile_cons, if_pos h, List.length_cons]
      omega
    · simp [List.dropWhile_cons, h]

theorem matchTail_length {l r : List Char} (h : matchTail l = some r) :
    r.length < l.length := by
  cases l with
  | nil => simp [matchTail] at h
  | cons a as =>
    by_cases ha : isAsciiLetter a = true
    · simp [matchTail, ha] at h
      subst h
      simp only [List.length_cons]
      omega
    · simp [matchTail, ha] at h

theorem matchAnsiAt_length {l r : List Char} (h : matchAnsiAt l = some r) :
    r.length < l.length := by
  cases l with
  | nil => simp [matchAnsiAt] at h
  | cons c t =>
    cases t with
    | nil => simp [matchAnsiAt] at h
    | cons b rest =>
      simp only [matchAnsiAt] at h
      by_cases hcb : c = '\x1b' ∧ b = '['
      · rw [if_pos hcb] at h
        have h1 := matchTail_length h
        have h2 := dropWhile_length_le isDigitSemi rest
        simp only [List.length_cons]
        omega
      · rw [if_neg hcb] at h; cases h

theorem matchBracketAt_length {l r : List Char} (h : matchBracketAt l = some r) :
    r.length < l.length := by
  cases l with
  | nil => simp [matchBracketAt] at h
  | cons b rest =>
    simp only [matchBracketAt] at h
    by_cases hb : b = '['
    · rw [if_pos hb] at h
      have h1 := matchTail_length h
      have h2 := dropWhile_length_le isDigitSemi rest
      simp only [List.length_cons]
      omega
    · rw [if_neg hb] at h; cases h

/-- Go regexp ReplaceAllString with the empty replacement: scan left to
right; at each position, if the pattern matches, drop the match and resume
after it, otherwise keep the byte and move on.  The consumption proof keeps
the recursion well-founded. -/
def stripWith (m : List Char → Option (List Char))
    (hm : ∀ l r, m l = some r → r.length < l.length) :
    List Char → List Char
  | [] => []
  | c :: rest =>
    match hmm : m (c :: rest) with
    | some rest4 => stripWith m hm rest4
    | none => c :: stripWith m hm rest
termination_by l => l.length
decreasing_by
  · exact hm _ _ hmm
  · simp

/-- ansiRegex.ReplaceAllString(line, empty). -/
def stripAnsi (l : List Char) : List Char :=
  stripWith matchAnsiAt (fun _ _ h => matchAnsiAt_length h) l

/-- bracketRegex.ReplaceAllString(line, empty). -/
def stripBracket (l : List Char) : List Char :=
  stripWith matchBracketAt (fun _ _ h => matchBracketAt_length h) l

/-- Go unicode.IsSpace restricted to Latin-1, which is exhaustive for the
byte-per-Char embedding: space, tab, newline, vertical tab, form feed,
carriage return, next line (0x85) and no-break space (0xA0). -/
def isGoSpace (c : Char) : Bool :=
  c = ' ' || c = '\t' || c = '\n' || c = '\x0b' || c = '\x0c' || c = '\r' ||
  c = '\x85' || c = '\xa0'

/-- Go strings.TrimSpace: drop leading and trailing white space. -/
def trimSpace (l : List Char) : List Char :=
  ((l.dropWhile isGoSpace).reverse.dropWhile isGoSpace).reverse

/-- The Docker multiplexed-header step (docker.go lines 275-284): with at
least 8 bytes and a first byte of 1 (stdout) or 2 (stderr), drop the 8-byte
header; a header with no payload makes the whole function return empty
(none here).  Anything else passes through unchanged. -/
def afterHeader (line : List Char) : Option (List Char) :=
  if 8 ≤ line.length ∧
      (line.headD '\x00' = '\x01' ∨ line.headD '\x00' = '\x02') then
    if 8 < line.length then some (line.drop 8) else none
  else some line

/-- Number of printable-ASCII characters of the line.  The Go loop counts
printable runes while dividing by the byte length; in the byte-per-Char
embedding a byte is in 32-126 exactly when the corresponding rune is, so
the count agrees. -/
def countPrintable (l : List Char) : Nat :=
  (l.filter isPrintableAscii).length

/-- Go: cleanDockerLogLine (provisioner/docker.go lines 267-320).  The
final float comparison printable/len < 0.5 is rendered exactly as
2 * printable < len, which agrees with the float64 computation for any
line shorter than 2^52 bytes. -/
def cleanDockerLogLine (line : List Char) : List Char :=
  if line.length = 0 then []
  else
    match afterHeader line with
    | none => []
    | some l0 =>
      let l1 := stripAnsi l0
      let l2 := stripBracket l1
      let l3 := ((((l2.filter (· ≠ '\x00')).filter
        (· ≠ '\x01')).filter (· ≠ '\x02')).filter (· ≠ '\x03'))
      let l4 := trimSpace l3
      if l4.length = 0 then []
      else if 2 * countPrintable l4 < l4.length then []
      else l4

/-- The line after the four cleaning transforms of the claim (header strip,
regex strips, control-byte removal, trim), before the final suppression
test.  A header-only line has nothing left. -/
def preCleaned (line : List Char) : List Char :=
  match afterHeader line with
  | none => []
  | some l0 =>
    trimSpace (((((stripBracket (stripAnsi l0)).filter (· ≠ '\x00')).filter
      (· ≠ '\x01')).filter (· ≠ '\x02')).filter (· ≠ '\x03'))

/-! ## Helper lemmas -/

/-- In dry-run mode runStages performs no saveState call, whatever the
stages, their outcomes and the starting state. -/
theorem runStages_dry_saves (stages : List MStage) (st : ExecutionState) :
    (runStages stages st true).saves = [] := by
  induction stages generalizing st with
  | nil => rfl
  | cons s rest ih =>
    simp only [runStages]
    by_cases hsk : shouldSkipStage (some st) s.name = true
    · simp [hsk, ih]
    · simp only [Bool.not_eq_true] at hsk
      simp only [hsk, Bool.false_eq_true, if_false]
      cases ho : s.outcome with
      | some e => simp
      | none => simp [ih]

/-- A candidate the loop cannot connect to: absent from the host, or its
client construction fails, or its ping fails. -/
def unreachableCandidate (c : SocketCandidate) : Bool :=
  !c.onHost || c.clientErr.isSome || c.pingErr.isSome

/-- The candidate loop stops at the first reachable candidate: everything
before it is examined, nothing after it is, and the connection is to it. -/
theorem resolveLoop_first_reachable (c : SocketCandidate)
    (post : List SocketCandidate)
    (h1 : c.onHost = true) (h2 : c.clientErr = none) (h3 : c.pingErr = none) :
    ∀ (pre : List SocketCandidate) (le : Option String),
    (∀ x ∈ pre, unreachableCandidate x = true) →
    ∃ e, resolveLoop (pre ++ c :: post) le =
      (some c.path, e, pre.map SocketCandidate.path ++ [c.path]) := by
  intro pre
  induction pre with
  | nil =>
    intro le hpre
    refine ⟨le, ?_⟩
    simp [resolveLoop, h1, h2, h3]
  | cons x xs ih =>
    intro le hpre
    have hx : unreachableCandidate x = true := hpre x (by simp)
    have hxs : ∀ y ∈ xs, unreachableCandidate y = true :=
      fun y hy => hpre y (by simp [hy])
    simp only [List.cons_append, resolveLoop]
    by_cases hxo : x.onHost = false
    · obtain ⟨e, he⟩ := ih le hxs
      refine ⟨e, ?_⟩
      simp [hxo, he]
    · simp only [Bool.not_eq_false] at hxo
      unfold unreachableCandidate at hx
      rw [hxo] at hx
      simp only [Bool.not_true, Bool.false_or, Bool.or_eq_true,
        Option.isSome_iff_exists] at hx
      cases hc : x.clientErr with
      | some ce =>
        obtain ⟨e, he⟩ := ih (some ce) hxs
        refine ⟨e, ?_⟩
        simp [hxo, hc, he]
      | none =>
        cases hp : x.pingErr with
        | some pe =>
          obtain ⟨e, he⟩ := ih (some pe) hxs
          refine ⟨e, ?_⟩
          simp [hxo, hc, hp, he]
        | none =>
          rw [hc, hp] at hx
          simp at hx

/-! ## Claim theorems -/

/-- C1: for the pipeline built by buildStages, run for real (not dry) from
a fresh state, if stage i is the first to fail then runStages stops at
once, returns an error naming that stage and wrapping its underlying
error, and the saveState trace holds exactly the snapshots of the stages
before i — so the persisted last-completed-stage is stage i minus one
(empty trace, hence the untouched fresh value, when stage 1 fails), and no
write carrying stage i or any later stage is ever attempted. -/
theorem checkpoint_monotonicity (st : ExecutionState)
    (h : st.lastCompletedStage = "") (e : String) (o2 o3 : Option String) :
    (runStages (buildStages (some e) o2 o3) st false =
      ⟨.error ("stage \x27scaffold\x27 failed: " ++ e), st, ["scaffold"], [], []⟩)
  ∧ (runStages (buildStages none (some e) o3) st false =
      ⟨.error ("stage \x27scm\x27 failed: " ++ e),
        { st with lastCompletedStage := "scaffold",
                  lastSuccessfulStage := StageScaffold },
        ["scaffold", "scm"], [],
        [{ st with lastCompletedStage := "scaffold",
                   lastSuccessfulStage := StageScaffold }]⟩)
  ∧ (runStages (buildStages none none (some e)) st false =
      ⟨.error ("stage \x27provision\x27 failed: " ++ e),
        { st with lastCompletedStage := "scm",
                  lastSuccessfulStage := StageSCM },
        ["scaffold", "scm", "provision"], [],
        [{ st with lastCompletedStage := "scaffold",
                   lastSuccessfulStage := StageScaffold },
         { st with lastCompletedStage := "scm",
                   lastSuccessfulStage := StageSCM }]⟩) := by
  refine ⟨?_, ?_, ?_⟩ <;>
    simp [runStages, buildStages, shouldSkipStage, getCompletedStages, h,
      StageScaffold, StageSCM, StageProvision]

theorem checkpoint_monotonicity_witness :
    (newState "bp.yaml" "run-1").lastCompletedStage = ""
  ∧ (runStages (buildStages none (some "boom") none)
      (newState "bp.yaml" "run-1") false).res =
      .error "stage \x27scm\x27 failed: boom"
  ∧ (runStages (buildStages none (some "boom") none)
      (newState "bp.yaml" "run-1") false).saves.map
      ExecutionState.lastCompletedStage = ["scaffold"] := by
  have h := (checkpoint_monotonicity (newState "bp.yaml" "run-1")
    rfl "boom" none none).2.1
  refine ⟨rfl, ?_, ?_⟩ <;> rw [h] <;> rfl

/-- C2: re-running the same pipeline on a checkpoint whose
last-completed-stage is stage i executes exactly the stages after i in
construction order and skips exactly the stages up to i, in both real and
dry mode; and the skip decision is a total function of the
last-completed-stage value and the stage name alone. -/
theorem resume_correctness (st : ExecutionState) (d : Bool) :
    (st.lastCompletedStage = "" →
      (runStages (buildStages none none none) st d).executed =
        ["scaffold", "scm", "provision"]
      ∧ (runStages (buildStages none none none) st d).skipped = []
      ∧ (runStages (buildStages none none none) st d).res = .ok ())
  ∧ (st.lastCompletedStage = "scaffold" →
      (runStages (buildStages none none none) st d).executed = ["scm", "provision"]
      ∧ (runStages (buildStages none none none) st d).skipped = ["scaffold"]
      ∧ (runStages (buildStages none none none) st d).res = .ok ())
  ∧ (st.lastCompletedStage = "scm" →
      (runStages (buildStages none none none) st d).executed = ["provision"]
      ∧ (runStages (buildStages none none none) st d).skipped = ["scaffold", "scm"]
      ∧ (runStages (buildStages none none none) st d).res = .ok ())
  ∧ (st.lastCompletedStage = "provision" →
      (runStages (buildStages none none none) st d).executed = []
      ∧ (runStages (buildStages none none none) st d).skipped =
          ["scaffold", "scm", "provision"]
      ∧ (runStages (buildStages none none none) st d).res = .ok ())
  ∧ (∀ s1 s2 : ExecutionState, ∀ n : String,
      s1.lastCompletedStage = s2.lastCompletedStage →
      shouldSkipStage (some s1) n = shouldSkipStage (some s2) n) := by
  refine ⟨fun h => ?_, fun h => ?_, fun h => ?_, fun h => ?_,
    fun s1 s2 n hn => by simp [shouldSkipStage, hn]⟩ <;>
    cases d <;>
    simp [runStages, buildStages, shouldSkipStage, getCompletedStages, h,
      StageScaffold, StageSCM, StageProvision]

theorem resume_correctness_witness :
    (⟨"1.0", "run-1", "scaffold", "scaffold", "bp.yaml"⟩ :
      ExecutionState).lastCompletedStage = "scaffold"
  ∧ (runStages (buildStages none none none)
      ⟨"1.0", "run-1", "scaffold", "scaffold", "bp.yaml"⟩ false).executed =
      ["scm", "provision"]
  ∧ (runStages (buildStages none none none)
      ⟨"1.0", "run-1", "scaffold", "scaffold", "bp.yaml"⟩ false).skipped =
      ["scaffold"] := by
  have h := (resume_correctness
    ⟨"1.0", "run-1", "scaffold", "scaffold", "bp.yaml"⟩ false).2.1 rfl
  exact ⟨rfl, h.1, h.2.1⟩

/-- C3: in simulate-only mode Apply performs no checkpoint file operation
beyond the initial read: whatever the state file held, however parsing
goes, and whichever stages succeed or fail, the operation trace is exactly
one read — no write after any stage and no terminal write or removal. -/
theorem dry_run_purity (file : StateFile)
    (parse : String → Except String ExecutionState)
    (o1 o2 o3 : Option String) (bp rid : String) (retainState : Bool) :
    applyFileOps file parse o1 o2 o3 bp rid true retainState = [.read] := by
  unfold applyFileOps
  cases hl : loadState file parse with
  | error e => rfl
  | ok optSt =>
    simp [runStages_dry_saves]
    split <;> rfl

/-- C4: Close on a not-yet-closed handle returns nil when the process
exited with code 0, an error spelling out the numeric exit code when it
exited non-zero (in particular code 2), and on expiry of the bounded wait
a timeout error different from both other outcomes. -/
theorem container_exit_semantics (cr : ContainerReader) (h : cr.closed = false)
    (rf : Bool) :
    (containerReaderClose cr (.status 0) rf).err = none
  ∧ (∀ c : Int, c ≠ 0 → (containerReaderClose cr (.status c) rf).err =
      some ("container exited with non-zero status: " ++ toString c))
  ∧ (containerReaderClose cr (.status 2) rf).err =
      some "container exited with non-zero status: 2"
  ∧ (containerReaderClose cr .timeout rf).err = some "container wait timeout"
  ∧ (containerReaderClose cr .timeout rf).err ≠
      (containerReaderClose cr (.status 0) rf).err
  ∧ (containerReaderClose cr .timeout rf).err ≠
      (containerReaderClose cr (.status 2) rf).err := by
  cases hr : cr.retainContainer <;>
    refine ⟨?_, fun c hc => ?_, ?_, ?_, ?_, ?_⟩ <;>
    simp [containerReaderClose, h, hr, exitErrorOf] <;>
    first
      | exact fun hc0 => hc hc0
      | decide

theorem container_exit_semantics_witness :
    (⟨false, false⟩ : ContainerReader).closed = false
  ∧ (containerReaderClose ⟨false, false⟩ (.status 0) false).err = none
  ∧ (containerReaderClose ⟨false, false⟩ (.status 2) false).err =
      some ("container exited with non-zero status: " ++ toString (2 : Int))
  ∧ (containerReaderClose ⟨false, false⟩ .timeout false).err =
      some "container wait timeout"
  ∧ (containerReaderClose ⟨false, false⟩ .timeout false).err ≠
      (containerReaderClose ⟨false, false⟩ (.status 2) false).err := by
  have h := container_exit_semantics ⟨false, false⟩ rfl false
  exact ⟨rfl, h.1, h.2.1 2 (by decide), h.2.2.2.1, h.2.2.2.2.2⟩

/-- C5: cleanDockerLogLine returns the empty line exactly when the line
left after header stripping, regex stripping, control-byte removal and
trimming is empty or has fewer than half its characters in printable
ASCII, and otherwise returns that cleaned line unchanged; in particular a
line of 20 non-printable bytes comes out empty. -/
theorem sanitizer_suppression (line : List Char) :
    (cleanDockerLogLine line =
      if preCleaned line = [] ∨
          2 * countPrintable (preCleaned line) < (preCleaned line).length
      then [] else preCleaned line)
  ∧ cleanDockerLogLine (List.replicate 20 '\x04') = [] := by
  constructor
  · unfold cleanDockerLogLine preCleaned
    by_cases hl : line.length = 0
    · have : line = [] := List.length_eq_zero.mp hl
      subst this
      simp [afterHeader, trimSpace, stripAnsi, stripBracket, stripWith]
    · simp only [hl, if_false]
      cases ha : afterHeader line with
      | none => simp
      | some l0 =>
        simp only []
        set l4 := trimSpace (((((stripBracket (stripAnsi l0)).filter
          (· ≠ '\x00')).filter (· ≠ '\x01')).filter
          (· ≠ '\x02')).filter (· ≠ '\x03')) with hl4
        by_cases h4 : l4.length = 0
        · have h4n : l4 = [] := List.length_eq_zero.mp h4
          simp [h4, h4n]
        · have h4n : ¬ (l4 = []) := fun hh => h4 (by simp [hh])
          by_cases hp : 2 * countPrintable l4 < l4.length <;>
            simp [h4, h4n, hp]
  · simp only [List.replicate]
    simp [cleanDockerLogLine, afterHeader, stripAnsi, stripBracket, stripWith,
      matchAnsiAt, matchBracketAt, matchTail, trimSpace, isGoSpace,
      countPrintable, isPrintableAscii, isDigitSemi, isAsciiLetter]

/-- C6: the resolver examines its candidate socket paths in order,
skipping those absent from the host, and connects to the first candidate
that exists, yields a client and answers the ping; every candidate after
it, and the env fallback, are left untouched. -/
theorem endpoint_fallback_first_reachable (pre : List SocketCandidate)
    (c : SocketCandidate) (post : List SocketCandidate) (env : EnvConfig)
    (hpre : ∀ x ∈ pre, unreachableCandidate x = true)
    (h1 : c.onHost = true) (h2 : c.clientErr = none) (h3 : c.pingErr = none) :
    createDockerClientWithDynamicSocket (pre ++ c :: post) env =
      ⟨.ok (.socket c.path), pre.map SocketCandidate.path ++ [c.path], false⟩ := by
  obtain ⟨e, he⟩ := resolveLoop_first_reachable c post h1 h2 h3 pre none hpre
  simp [createDockerClientWithDynamicSocket, he]

theorem endpoint_fallback_first_reachable_witness :
    (∀ x ∈ [(⟨"/sock/a", false, none, none⟩ : SocketCandidate),
            ⟨"/sock/b", true, none, some "no ping"⟩],
      unreachableCandidate x = true)
  ∧ createDockerClientWithDynamicSocket
      [⟨"/sock/a", false, none, none⟩, ⟨"/sock/b", true, none, some "no ping"⟩,
       ⟨"/sock/c", true, none, none⟩, ⟨"/sock/d", true, none, none⟩]
      ⟨none, none⟩ =
      ⟨.ok (.socket "/sock/c"), ["/sock/a", "/sock/b", "/sock/c"], false⟩ := by
  refine ⟨by decide, ?_⟩
  exact endpoint_fallback_first_reachable
    [⟨"/sock/a", false, none, none⟩, ⟨"/sock/b", true, none, some "no ping"⟩]
    ⟨"/sock/c", true, none, none⟩ [⟨"/sock/d", true, none, none⟩]
    ⟨none, none⟩ (by decide) rfl rfl rfl

/-- C7: loadState answers a missing state file with the explicit absent
success, and answers an existing file that fails to parse with a wrapped
error — never with any success value, so corruption is never silently
treated as a fresh start. -/
theorem state_store_load_contract
    (parse : String → Except String ExecutionState) :
    loadState .missing parse = .ok none
  ∧ (∀ raw e, parse raw = .error e →
      loadState (.content raw) parse =
        .error ("failed to parse state file: " ++ e)
      ∧ ∀ v, loadState (.content raw) parse ≠ .ok v) := by
  refine ⟨rfl, fun raw e he => ?_⟩
  have h : loadState (.content raw) parse =
      .error ("failed to parse state file: " ++ e) := by
    simp [loadState, he]
  exact ⟨h, fun v => by simp [h]⟩

theorem state_store_load_contract_witness :
    (fun _ : String => (.error "bad json" : Except String ExecutionState))
      "raw bytes" = .error "bad json"
  ∧ loadState .missing (fun _ => .error "bad json") = .ok none
  ∧ loadState (.content "raw bytes") (fun _ => .error "bad json") =
      .error "failed to parse state file: bad json" := by
  have h := state_store_load_contract (fun _ => .error "bad json")
  exact ⟨rfl, h.1, (h.2 "raw bytes" "bad json" rfl).1⟩

/-- C8: Close on a not-yet-closed handle attempts container removal
exactly when the retain flag is unset, and its returned error is
determined by the wait outcome alone — the whole result is independent of
whether removal fails. -/
theorem close_retention_frame (cr : ContainerReader) (h : cr.closed = false) :
    (∀ w rf, (containerReaderClose cr w rf).removeAttempted =
      !cr.retainContainer)
  ∧ (∀ w rf1 rf2, containerReaderClose cr w rf1 = containerReaderClose cr w rf2)
  ∧ (∀ w rf, (containerReaderClose cr w rf).err = exitErrorOf w) := by
  refine ⟨fun w rf => ?_, fun w rf1 rf2 => rfl, fun w rf => ?_⟩ <;>
    cases hr : cr.retainContainer <;> simp [containerReaderClose, h, hr]

theorem close_retention_frame_witness :
    (⟨false, true⟩ : ContainerReader).closed = false
  ∧ (containerReaderClose ⟨false, true⟩ (.status 0) false).removeAttempted = false
  ∧ (containerReaderClose ⟨false, false⟩ (.status 0) false).removeAttempted = true
  ∧ containerReaderClose ⟨false, false⟩ .timeout true =
      containerReaderClose ⟨false, false⟩ .timeout false := by
  have h1 := close_retention_frame ⟨false, true⟩ rfl
  have h2 := close_retention_frame ⟨false, false⟩ rfl
  refine ⟨rfl, ?_, ?_, h2.2.1 .timeout true false⟩
  · rw [h1.1 (.status 0) false]; rfl
  · rw [h2.1 (.status 0) false]; rfl

/-- C9: a parsed checkpoint whose stage value is a non-empty string
outside the known names skips no stage — the run traces (result, executed,
skipped, saves) coincide with those of a fresh start — and getNextStage
yields the first stage rather than an error. -/
theorem unknown_checkpoint_fresh_start (st : ExecutionState) (v : String)
    (d : Bool) (stages : List MStage)
    (hv : st.lastCompletedStage = v) (hvs : st.lastSuccessfulStage = v)
    (hne : v ≠ "") (h1 : v ≠ "scaffold") (h2 : v ≠ "scm")
    (h3 : v ≠ "provision") (h4 : v ≠ "completed") :
    (∀ n, shouldSkipStage (some st) n = false)
  ∧ ((runStages stages st d).res =
        (runStages stages { st with lastCompletedStage := "" } d).res
      ∧ (runStages stages st d).executed =
        (runStages stages { st with lastCompletedStage := "" } d).executed
      ∧ (runStages stages st d).skipped =
        (runStages stages { st with lastCompletedStage := "" } d).skipped
      ∧ (runStages stages st d).saves =
        (runStages stages { st with lastCompletedStage := "" } d).saves)
  ∧ getNextStage (some st) = StageScaffold := by
  have hsk : ∀ n, shouldSkipStage (some st) n = false := by
    intro n
    simp [shouldSkipStage, hv, hne, getCompletedStages, h1, h2, h3, h4]
  refine ⟨hsk, ?_, ?_⟩
  · cases stages with
    | nil => exact ⟨rfl, rfl, rfl, rfl⟩
    | cons s rest =>
      have hsk2 : shouldSkipStage
          (some { st with lastCompletedStage := "" }) s.name = false := by
        simp [shouldSkipStage]
      simp only [runStages, hsk s.name, hsk2, Bool.false_eq_true, if_false]
      cases ho : s.outcome with
      | some e => simp [ho]
      | none => simp [ho]
  · simp [getNextStage, hvs, hne, StageScaffold, StageSCM, StageProvision,
      h1, h2, h3]

theorem unknown_checkpoint_fresh_start_witness :
    (⟨"1.0", "run-1", "bogus", "bogus", "bp.yaml"⟩ :
      ExecutionState).lastCompletedStage = "bogus"
  ∧ ("bogus" : String) ≠ ""
  ∧ shouldSkipStage
      (some ⟨"1.0", "run-1", "bogus", "bogus", "bp.yaml"⟩) "scaffold" = false
  ∧ (runStages (buildStages none none none)
      ⟨"1.0", "run-1", "bogus", "bogus", "bp.yaml"⟩ false).executed =
    (runStages (buildStages none none none)
      ⟨"1.0", "run-1", "", "bogus", "bp.yaml"⟩ false).executed
  ∧ getNextStage (some ⟨"1.0", "run-1", "bogus", "bogus", "bp.yaml"⟩) =
      StageScaffold := by
  have h := unknown_checkpoint_fresh_start
    ⟨"1.0", "run-1", "bogus", "bogus", "bp.yaml"⟩ "bogus" false
    (buildStages none none none) rfl rfl (by decide) (by decide) (by decide)
    (by decide) (by decide)
  refine ⟨rfl, by decide, h.1 "scaffold", ?_, h.2.2⟩
  have he := h.2.1.2.1
  simpa using he

/-- C10: a second Close on the same handle returns nil at once, with no
wait and no removal attempt, whatever error the first Close returned. -/
theorem close_second_call_noop (cr : ContainerReader) (h : cr.closed = false)
    (w1 : WaitOutcome) (rf1 : Bool) (w2 : WaitOutcome) (rf2 : Bool) :
    containerReaderClose (containerReaderClose cr w1 rf1).reader w2 rf2 =
      ⟨none, false, false, (containerReaderClose cr w1 rf1).reader⟩ := by
  cases hr : cr.retainContainer <;> simp [containerReaderClose, h, hr]

theorem close_second_call_noop_witness :
    (⟨false, false⟩ : ContainerReader).closed = false
  ∧ containerReaderClose
      (containerReaderClose ⟨false, false⟩ (.status 2) false).reader
      (.status 2) false =
      ⟨none, false, false,
        (containerReaderClose ⟨false, false⟩ (.status 2) false).reader⟩ := by
  exact ⟨rfl,
    close_second_call_noop ⟨false, false⟩ rfl (.status 2) false (.status 2) false⟩

end KloneKit
